import Mathlib

/- Shallow embedding of the deutsche-tkm-rag retrieval-and-context-assembly
core (src/core/chunking.py, src/core/retrieval.py, src/llm/prompt_manager.py).
Python strings are modelled as Lean strings (sequences of unicode code points),
Python ints as Nat / Int, reranker scores as Int, fallible operations as
Except, and the external vector store, cross-encoder and tokenizer as explicit
function parameters. -/

/-! ### Python string primitives used by the chunker and the prompt assembler -/

/-- Whitespace set recognized by the Python str.split and str.strip defaults
(ASCII subset; the repository only feeds ASCII separators to them). -/
def isPySpace (c : Char) : Bool :=
  c = ' ' || c = '\t' || c = '\n' || c = '\r' || c = '\x0b' || c = '\x0c'

/-- Model of Python str.strip with no argument, on a character list: remove
leading and trailing whitespace characters. -/
def pyStripChars (l : List Char) : List Char :=
  ((l.dropWhile isPySpace).reverse.dropWhile isPySpace).reverse

/-- Model of Python str.strip with no argument. -/
def pyStrip (s : String) : String := ⟨pyStripChars s.data⟩

/-- Model of the Python slice s[:n], counted in code points. -/
def pySlice (s : String) (n : Nat) : String := ⟨s.data.take n⟩

/-- Helper for pySplit: split a character list on runs of whitespace,
discarding empty pieces; the second argument accumulates the current word in
reverse order. -/
def pySplitAux : List Char → List Char → List (List Char)
  | [], acc => if acc.isEmpty then [] else [acc.reverse]
  | c :: cs, acc =>
    if isPySpace c then
      if acc.isEmpty then pySplitAux cs [] else acc.reverse :: pySplitAux cs []
    else pySplitAux cs (c :: acc)

/-- Model of Python str.split with no argument: split on runs of whitespace,
with no empty words produced. -/
def pySplit (s : String) : List String := (pySplitAux s.data []).map fun l => ⟨l⟩

/-- Model of the Python expression (" ").join(words). -/
def joinWords (ws : List String) : String :=
  ⟨List.intercalate [' '] (ws.map String.data)⟩

/-! ### SHA-256 (hashlib.sha256), over Nat with explicit reduction mod 2 ^ 32 -/

/-- Reduce a Nat to a 32-bit word. -/
def w32 (x : Nat) : Nat := x % 4294967296

/-- Rotate a 32-bit word right by n bits. -/
def rotr32 (n x : Nat) : Nat := (x >>> n) ||| w32 (x <<< (32 - n))

/-- The 64 SHA-256 round constants (written in decimal). -/
def sha256K : List Nat :=
  [1116352408, 1899447441, 3049323471, 3921009573, 961987163, 1508970993,
   2453635748, 2870763221, 3624381080, 310598401, 607225278, 1426881987,
   1925078388, 2162078206, 2614888103, 3248222580, 3835390401, 4022224774,
   264347078, 604807628, 770255983, 1249150122, 1555081692, 1996064986,
   2554220882, 2821834349, 2952996808, 3210313671, 3336571891, 3584528711,
   113926993, 338241895, 666307205, 773529912, 1294757372, 1396182291,
   1695183700, 1986661051, 2177026350, 2456956037, 2730485921, 2820302411,
   3259730800, 3345764771, 3516065817, 3600352804, 4094571909, 275423344,
   430227734, 506948616, 659060556, 883997877, 958139571, 1322822218,
   1537002063, 1747873779, 1955562222, 2024104815, 2227730452, 2361852424,
   2428436474, 2756734187, 3204031479, 3329325298]

/-- SHA-256 working state: eight 32-bit words. -/
structure Sha256State where
  a : Nat
  b : Nat
  c : Nat
  d : Nat
  e : Nat
  f : Nat
  g : Nat
  h : Nat

/-- SHA-256 initial hash value (written in decimal). -/
def sha256Init : Sha256State :=
  ⟨1779033703, 3144134277, 1013904242, 2773480762,
   1359893119, 2600822924, 528734635, 1541459225⟩

/-- SHA-256 choice function. -/
def sha256Ch (u v w : Nat) : Nat := (u &&& v) ^^^ ((u ^^^ 4294967295) &&& w)

/-- SHA-256 majority function. -/
def sha256Maj (u v w : Nat) : Nat := ((u &&& v) ^^^ (u &&& w)) ^^^ (v &&& w)

/-- SHA-256 big sigma 0. -/
def sha256BigSigma0 (u : Nat) : Nat := (rotr32 2 u ^^^ rotr32 13 u) ^^^ rotr32 22 u

/-- SHA-256 big sigma 1. -/
def sha256BigSigma1 (u : Nat) : Nat := (rotr32 6 u ^^^ rotr32 11 u) ^^^ rotr32 25 u

/-- SHA-256 small sigma 0. -/
def sha256SmallSigma0 (u : Nat) : Nat := (rotr32 7 u ^^^ rotr32 18 u) ^^^ (u >>> 3)

/-- SHA-256 small sigma 1. -/
def sha256SmallSigma1 (u : Nat) : Nat := (rotr32 17 u ^^^ rotr32 19 u) ^^^ (u >>> 10)

/-- Extend the 16 block words to the 64-entry message schedule; the Nat
argument is the number of words still to append. -/
def sha256Extend (ws : List Nat) : Nat → List Nat
  | 0 => ws
  | n + 1 =>
    let t := ws.length
    let w := w32 (sha256SmallSigma1 (ws.getD (t - 2) 0) + ws.getD (t - 7) 0 +
      sha256SmallSigma0 (ws.getD (t - 15) 0) + ws.getD (t - 16) 0)
    sha256Extend (ws ++ [w]) n

/-- One SHA-256 compression round; the pair holds the round constant and the
schedule word. -/
def sha256Round (st : Sha256State) (kw : Nat × Nat) : Sha256State :=
  let t1 := w32 (st.h + sha256BigSigma1 st.e + sha256Ch st.e st.f st.g + kw.1 + kw.2)
  let t2 := w32 (sha256BigSigma0 st.a + sha256Maj st.a st.b st.c)
  ⟨w32 (t1 + t2), st.a, st.b, st.c, w32 (st.d + t1), st.e, st.f, st.g⟩

/-- Process one 16-word block. -/
def sha256ProcessBlock (st : Sha256State) (block : List Nat) : Sha256State :=
  let ws := sha256Extend block 48
  let r := (sha256K.zip ws).foldl sha256Round st
  ⟨w32 (st.a + r.a), w32 (st.b + r.b), w32 (st.c + r.c), w32 (st.d + r.d),
   w32 (st.e + r.e), w32 (st.f + r.f), w32 (st.g + r.g), w32 (st.h + r.h)⟩

/-- Group a byte list into big-endian 32-bit words (the input length is a
multiple of 4 after padding). -/
def bytesToWords32 : List Nat → List Nat
  | b0 :: b1 :: b2 :: b3 :: rest =>
    ((((b0 <<< 8) ||| b1) <<< 8 ||| b2) <<< 8 ||| b3) :: bytesToWords32 rest
  | _ => []

/-- Split a byte list into 64-byte blocks; the fuel argument (at least the
list length) makes the recursion structural. -/
def chunk64Fuel : Nat → List Nat → List (List Nat)
  | 0, _ => []
  | _, [] => []
  | fuel + 1, l => l.take 64 :: chunk64Fuel fuel (l.drop 64)

/-- Split a byte list into 64-byte blocks. -/
def chunk64 (l : List Nat) : List (List Nat) := chunk64Fuel l.length l

/-- SHA-256 padding: append the 0x80 byte, zero bytes up to 56 mod 64, and the
64-bit big-endian bit length. -/
def sha256Pad (msg : List Nat) : List Nat :=
  let bitLen := msg.length * 8
  let padZeros := (55 + 64 - msg.length % 64) % 64
  msg ++ 128 :: (List.replicate padZeros 0 ++
    (List.range 8).map fun i => (bitLen >>> (8 * (7 - i))) % 256)

/-- SHA-256 of a byte list, as the eight 32-bit hash words. -/
def sha256Words (msg : List Nat) : List Nat :=
  let blocks := chunk64 (sha256Pad msg)
  let st := blocks.foldl (fun st b => sha256ProcessBlock st (bytesToWords32 b)) sha256Init
  [st.a, st.b, st.c, st.d, st.e, st.f, st.g, st.h]

/-- Lowercase hexadecimal digits. -/
def hexChars : List Char := "0123456789abcdef".data

/-- Render one 32-bit word as 8 lowercase hex characters. -/
def word32ToHex (w : Nat) : List Char :=
  (List.range 8).map fun i => hexChars.getD ((w >>> (4 * (7 - i))) &&& 15) '0'

/-- UTF-8 bytes of a string, as Nats. -/
def utf8Bytes (s : String) : List Nat :=
  ((s.data.map String.utf8EncodeChar).flatten).map fun b => b.toNat

/-- Model of hashlib.sha256(s.encode(utf-8)).hexdigest(). -/
def sha256HexDigest (s : String) : String :=
  ⟨((sha256Words (utf8Bytes s)).map word32ToHex).flatten⟩

/-! ### Chunking (src/core/chunking.py) -/

/-- TextChunker.chunk (src/core/chunking.py lines 51-69): word-based chunking
with overlap. The loop over range(0, len(words), step) is modelled by
List.range'; a zero Python range step raises ValueError, modelled by the
error branch, and a negative step yields an empty Python range, modelled by
the empty index list. -/
def TextChunker.chunk (chunk_size chunk_overlap : Nat) (text : String) :
    Except String (List String) :=
  let words := pySplit text
  let step : Int := (chunk_size : Int) - (chunk_overlap : Int)
  if step = 0 then
    .error "ValueError: range() arg 3 must not be zero"
  else
    let idxs : List Nat :=
      if 0 < step then
        List.range' 0 ((words.length + step.toNat - 1) / step.toNat) step.toNat
      else []
    let chunks :=
      (idxs.map fun i => joinWords ((words.drop i).take chunk_size)).filter
        fun c => !(pyStrip c == "")
    .ok (if chunks.isEmpty then [text] else chunks)

/-- MetadataAwareChunker._generate_chunk_id (src/core/chunking.py lines
96-113): first 16 hex characters of the SHA-256 of
doc_id, an underscore, the chunk index, an underscore, and the first 50
characters of the chunk text. -/
def MetadataAwareChunker.generate_chunk_id (doc_id : String) (chunk_index : Nat)
    (chunk_text : String) : String :=
  let first_50_chars := if chunk_text == "" then "" else pySlice chunk_text 50
  let hash_input := doc_id ++ "_" ++ toString chunk_index ++ "_" ++ first_50_chars
  pySlice (sha256HexDigest hash_input) 16

/-- A LangChain Document: page content plus a string-keyed metadata mapping,
modelled as an association list with string values. -/
structure Document where
  page_content : String
  metadata : List (String × String)
deriving DecidableEq, Inhabited

/-- Python dict get on a metadata mapping (first matching key wins; Python
dicts have unique keys). -/
def getMeta (m : List (String × String)) (key : String) : Option String :=
  (m.find? fun p => p.1 == key).map Prod.snd

/-- The fragment identifier of an indexed Document: the chunk_id metadata
entry written by MetadataAwareChunker.chunk_with_metadata. -/
def Document.fragment_id (d : Document) : Option String :=
  getMeta d.metadata "chunk_id"

/-- MetadataAwareChunker.chunk_with_metadata (src/core/chunking.py lines
115-161). The RecursiveCharacterTextSplitter is an external langchain
collaborator, modelled as the function parameter split. The Python dict
update gives the extra metadata priority over the base keys, modelled by
putting it first in the association list. -/
def MetadataAwareChunker.chunk_with_metadata (split : String → List String)
    (text source doc_id : String) (metadata : List (String × String)) :
    List Document :=
  let chunks := split text
  let total_chunks := chunks.length
  (List.range chunks.length).map fun idx =>
    let chunk_text := chunks.getD idx ""
    let chunk_id := MetadataAwareChunker.generate_chunk_id doc_id idx chunk_text
    { page_content := chunk_text
      metadata := metadata ++
        [("source", source), ("doc_id", doc_id), ("chunk_index", toString idx),
         ("total_chunks", toString total_chunks), ("chunk_id", chunk_id)] }

/-! ### Retrieval engine (src/core/retrieval.py) -/

/-- Insert into a sorted list: the new element goes before the first entry
it compares le to, so an element inserted from the left of the original
list lands before every entry with an equal key (stability). -/
def insertLe {α : Type} (le : α → α → Bool) (x : α) : List α → List α
  | [] => [x]
  | y :: ys => if le x y then x :: y :: ys else y :: insertLe le x ys

/-- Stable insertion sort (processing the input left to right). A stable
sort is uniquely determined by its comparison, so this models both the
stable ascending numpy argsort and the stable Python list.sort. -/
def insertionSortBy {α : Type} (le : α → α → Bool) : List α → List α
  | [] => []
  | x :: xs => insertLe le x (insertionSortBy le xs)

/-- The Python idiom k = k or default: a missing or falsy (zero) argument is
replaced by the settings value. -/
def resolveK (defaultK : Nat) (k : Option Nat) : Nat :=
  match k with
  | none => defaultK
  | some 0 => defaultK
  | some n => n

/-- Reranker.rerank (src/core/retrieval.py lines 69-93). The cross-encoder
model.predict scores one (query, document) pair through the function
parameter predict; scores are modelled as Int. RERANK_TOP_K models
settings.RERANK_TOP_K, used when the caller passes a falsy top_k (None or
0, the Python or idiom). Python list.sort with a score key and reverse=True
is a stable descending sort, modelled by List.mergeSort with the reflected
greater-or-equal comparison. -/
def Reranker.rerank (RERANK_TOP_K : Nat) (predict : String → String → Int)
    (query : String) (documents : List String) (top_k : Option Nat) :
    List (String × Int) :=
  if documents.isEmpty then []
  else
    let top_k := resolveK RERANK_TOP_K top_k
    let pairs := documents.map fun d => (query, d)
    let scores := pairs.map fun p => predict p.1 p.2
    let scored_docs := documents.zip scores
    let sorted := insertionSortBy (fun x y => decide (y.2 ≤ x.2)) scored_docs
    sorted.take top_k

/-- RetrievalEngine.similarity_search (src/core/retrieval.py lines 138-164).
search models self.vectordb.similarity_search as a function from the
requested k to the ordered candidate list; TOP_K models settings.TOP_K,
used when the caller passes a falsy k. The text_to_doc dict maps each page
content to the last candidate holding it (later dict writes win), and the
final comprehension keeps a reranked text only when the dict resolves it,
modelled by filterMap over find? on the reversed candidate list. -/
def RetrievalEngine.similarity_search (TOP_K RERANK_TOP_K : Nat)
    (search : Nat → List Document) (predict : String → String → Int)
    (query : String) (k0 : Option Nat) (rerank : Bool) : List Document :=
  let k := resolveK TOP_K k0
  let results := search (if rerank then k * 2 else k)
  let results2 :=
    if rerank then
      let doc_texts := results.map fun d => d.page_content
      let reranked := Reranker.rerank RERANK_TOP_K predict query doc_texts (some k)
      reranked.filterMap fun td =>
        results.reverse.find? fun d => d.page_content == td.1
    else results
  results2.take k

/-- numpy argsort of the score list: the stable ascending argsort (the
candidate arrays in play are far below the numpy introsort leaf size, where
its quicksort kind degenerates to a stable insertion sort). -/
def argsort (scores : List Int) : List Nat :=
  insertionSortBy (fun i j => decide (scores.getD i 0 ≤ scores.getD j 0))
    (List.range scores.length)

/-- The initial retrieval count of AdvancedRetriever.retrieve (lines
224-228): rerank_top_k (defaulting to top_k) when a reranker is configured,
else top_k. -/
def AdvancedRetriever.initialK (predict : Option (String → String → Int))
    (rerank_top_k : Option Nat) (top_k : Nat) : Nat :=
  match predict with
  | some _ =>
    match rerank_top_k with
    | some r => r
    | none => top_k
  | none => top_k

/-- AdvancedRetriever.retrieve (src/core/retrieval.py lines 205-250). The
optional reranker is predict (None models a retriever constructed without a
reranker model); search models self.vectordb.similarity_search with its
filter argument. Lines 244-246 sort by score descending through
np.argsort(scores) reversed and keep the first top_k indices. -/
def AdvancedRetriever.retrieve (predict : Option (String → String → Int))
    (search : Nat → Option (List (String × String)) → List Document)
    (query : String) (top_k : Nat) (rerank_top_k : Option Nat)
    (filters : Option (List (String × String))) : List Document :=
  let k := AdvancedRetriever.initialK predict rerank_top_k top_k
  let results := search k filters
  match predict with
  | some p =>
    if top_k < results.length then
      let doc_texts := results.map fun d => d.page_content
      let pairs := doc_texts.map fun t => (query, t)
      let scores := pairs.map fun pr => p pr.1 pr.2
      let indices := (argsort scores).reverse
      (indices.take top_k).map fun i => results.getD i default
    else results.take top_k
  | none => results.take top_k

/-- Whether AdvancedRetriever.retrieve reaches the reranker predict call on
line 242: it mirrors the guards of lines 225 and 236 (a reranker is
configured and the candidate count exceeds top_k). -/
def AdvancedRetriever.predictInvoked (predict : Option (String → String → Int))
    (search : Nat → Option (List (String × String)) → List Document)
    (top_k : Nat) (rerank_top_k : Option Nat)
    (filters : Option (List (String × String))) : Bool :=
  let k := AdvancedRetriever.initialK predict rerank_top_k top_k
  let results := search k filters
  predict.isSome && decide (top_k < results.length)

/-- The reranker score list computed by AdvancedRetriever.retrieve (lines
238-242) for a given candidate list: one cross-encoder score per
(query, page content) pair, in candidate order. -/
def AdvancedRetriever.stage2Scores (p : String → String → Int) (query : String)
    (results : List Document) : List Int :=
  ((results.map fun d => d.page_content).map fun t => (query, t)).map
    fun pr => p pr.1 pr.2

/-- The index order produced by lines 244-246: the reversed stable ascending
argsort of the score list. -/
def AdvancedRetriever.stage2Order (p : String → String → Int) (query : String)
    (results : List Document) : List Nat :=
  (argsort (AdvancedRetriever.stage2Scores p query results)).reverse

/-- AdvancedRetriever.retrieve_safe (src/core/retrieval.py lines 280-308).
search models self.vectordb.similarity_search as a fallible call from the
requested k; the error string models the exception message. -/
def AdvancedRetriever.retrieve_safe
    (search : Nat → Except String (List Document)) (top_k fallback_k : Nat) :
    Except String (List Document) :=
  match search top_k with
  | .ok results => .ok results
  | .error e =>
    match search fallback_k with
    | .ok fallback_results => .ok fallback_results
    | .error fallback_error =>
      .error ("Both primary and fallback retrieval failed. Primary error: " ++ e ++
        ", Fallback error: " ++ fallback_error)

/-! ### Prompt assembly (src/llm/prompt_manager.py) -/

/-- PromptManager.SYSTEM_PROMPT (src/llm/prompt_manager.py lines 17-25). -/
def PromptManager.SYSTEM_PROMPT : String :=
  "You are an enterprise AI assistant for Deutsche Telekom.\n" ++
  "Your role is to deliver accurate, well-reasoned insights grounded in the provided publications.\n\n" ++
  "Guidelines:\n" ++
  "- Base all answers on the provided context documents, but you may synthesize or infer relationships between them.\n" ++
  "- If specific information is missing, explicitly state that it is not available.\n" ++
  "- Maintain a confident, professional tone consistent with Deutsche Telekom communications.\n" ++
  "- Cite publication IDs when drawing on particular sources (e.g., “(Publication 12)”).\n" ++
  "- Avoid speculation or repetition. Respond with a clear, concise, and factual summary."

/-- One numbered context entry (the loop body of
PromptManager._format_context_block, src/llm/prompt_manager.py lines 41-54):
resolve the publication label through the nested metadata get calls, take
the first 800 characters as the excerpt, and append an ellipsis when the
content is longer. -/
def PromptManager.formatContextLine (idx : Nat) (doc : Document) : String :=
  let publication_id := (getMeta doc.metadata "publication_id").getD
    ((getMeta doc.metadata "doc_id").getD ("doc_" ++ toString idx))
  let excerpt0 := pyStrip (pySlice doc.page_content 800)
  let excerpt :=
    if 800 < doc.page_content.length then excerpt0 ++ "..." else excerpt0
  toString idx ++ ". [Publication ID: " ++ publication_id ++ "]\n" ++ excerpt ++ "\n"

/-- PromptManager._format_context_block (src/llm/prompt_manager.py lines
27-56): the empty marker, or the numbered entries (enumerate starting at 1)
joined by blank separators. -/
def PromptManager.format_context_block (context_docs : List Document) : String :=
  if context_docs.isEmpty then "No relevant documents found."
  else
    let context_lines := ((List.range' 1 context_docs.length).zip context_docs).map
      fun p => PromptManager.formatContextLine p.1 p.2
    String.intercalate "\n" context_lines

/-- The fixed persona turn plus the scripted reinforcement exchange
(src/llm/prompt_manager.py lines 89-105). Turns are (role, content) pairs. -/
def PromptManager.anchorMessages : List (String × String) :=
  [("system", PromptManager.SYSTEM_PROMPT),
   ("user",
    "Remember: if information is absent from the provided context, " ++
    "state clearly that it is unavailable. Always cite publication IDs when using sources."),
   ("assistant",
    "Understood. I will base answers strictly on the provided context, " ++
    "cite publication IDs when relevant, and indicate when data is missing.")]

/-- PromptManager.build_rag_prompt (src/llm/prompt_manager.py lines 58-125).
The Hugging Face tokenizer is the external collaborator: its
apply_chat_template method is modelled as a function from the turn list to
the final prompt string, and a None tokenizer raises ValueError, modelled
by the error branch. An empty chat history list is falsy in Python, so it
is not appended. -/
def PromptManager.build_rag_prompt (query : String) (context_docs : List Document)
    (chat_history : Option (List (String × String)))
    (tokenizer : Option (List (String × String) → String)) :
    Except String String :=
  match tokenizer with
  | none => .error "Tokenizer with chat template is required for Gemma-style models."
  | some apply_chat_template =>
    let context_block := PromptManager.format_context_block context_docs
    let messages := PromptManager.anchorMessages ++
      (match chat_history with
       | some hist => if hist.isEmpty then [] else hist
       | none => [])
    let user_content :=
      pyStrip query ++ "\n\n" ++ "Context documents:\n" ++ context_block ++
      "\n\n" ++ "Respond with a single, well-structured answer. " ++
      "Do not restate or list the context verbatim; focus on reasoned synthesis."
    .ok (apply_chat_template (messages ++ [("user", user_content)]))

/-! ### Spec-side definitions used to state the claims -/

/-- Label resolution as the spec words it: try the publication_id metadata
key, then the doc_id metadata key, then the synthetic placeholder doc_N. -/
def specFragmentLabel (doc : Document) (n : Nat) : String :=
  match getMeta doc.metadata "publication_id" with
  | some v => v
  | none =>
    match getMeta doc.metadata "doc_id" with
    | some v => v
    | none => "doc_" ++ toString n

/-- The character overlap of two consecutive produced fragments: the length
of the longest suffix of the first that is also a prefix of the second. -/
def charOverlap (a b : String) : Nat :=
  ((List.range (min a.length b.length + 1)).filter
    fun k => decide (a.data.drop (a.data.length - k) = b.data.take k)).foldl max 0

/-! ### Concrete inputs used by witness and counterexample theorems -/

/-- A concrete indexed document. -/
def wDocA : Document := ⟨"a", [("chunk_id", "ida")]⟩

/-- A concrete indexed document. -/
def wDocB : Document := ⟨"b", [("chunk_id", "idb")]⟩

/-- A concrete indexed document. -/
def wDocC : Document := ⟨"c", [("chunk_id", "idc")]⟩

/-- A document sharing its page content with wDupT2 under a distinct
fragment id. -/
def wDupT1 : Document := ⟨"t", [("chunk_id", "t1")]⟩

/-- A document sharing its page content with wDupT1 under a distinct
fragment id. -/
def wDupT2 : Document := ⟨"t", [("chunk_id", "t2")]⟩

/-- A document distinct from the wDupT pair. -/
def wDocU : Document := ⟨"u", [("chunk_id", "u1")]⟩

/-- A concrete vector store stub answering with one document at k = 1 and
two documents at larger k. -/
def wSearchGrow (k : Nat) (_filters : Option (List (String × String))) :
    List Document :=
  if k = 1 then [wDocA] else [wDocA, wDocB]

/-! ### Theorems -/

/-- The final conditional of TextChunker.chunk never yields an empty list. -/
theorem ite_isEmpty_ne_nil (l : List String) (t : String) :
    (if l.isEmpty then [t] else l) ≠ [] := by
  by_cases hc : l.isEmpty = true
  · rw [if_pos hc]
    simp
  · rw [if_neg hc]
    intro h
    exact hc (by simp [h])

/-- Claim C1: for every query and every k, the final sequence returned by
AdvancedRetriever.retrieve with top_k = k has length at most k, on both the
reranked path and the plain similarity path. -/
theorem C1_retrieve_result_bound (predict : Option (String → String → Int))
    (search : Nat → Option (List (String × String)) → List Document)
    (query : String) (top_k : Nat) (rerank_top_k : Option Nat)
    (filters : Option (List (String × String))) :
    (AdvancedRetriever.retrieve predict search query top_k rerank_top_k
      filters).length ≤ top_k := by
  unfold AdvancedRetriever.retrieve
  cases predict with
  | none => simp
  | some p =>
    dsimp only
    split
    · simp
    · simp

/-- Claim C4: retrieve_safe returns the primary result unchanged when the
primary similarity search succeeds (including a genuinely empty result),
returns the fallback result without raising when the primary raises and the
retry at fallback_k succeeds, and raises a single RetrievalError whose
message references both causes when both raise. -/
theorem C4_retrieve_safe_fallback (search : Nat → Except String (List Document))
    (top_k fallback_k : Nat) :
    (∀ r, search top_k = .ok r →
      AdvancedRetriever.retrieve_safe search top_k fallback_k = .ok r) ∧
    (∀ e r, search top_k = .error e → search fallback_k = .ok r →
      AdvancedRetriever.retrieve_safe search top_k fallback_k = .ok r) ∧
    (∀ e fallback_error, search top_k = .error e →
      search fallback_k = .error fallback_error →
      AdvancedRetriever.retrieve_safe search top_k fallback_k =
        .error ("Both primary and fallback retrieval failed. Primary error: " ++ e ++
          ", Fallback error: " ++ fallback_error)) := by
  refine ⟨?_, ?_, ?_⟩ <;> intros <;> simp_all [AdvancedRetriever.retrieve_safe]

/-- Witness for C4 at concrete inputs: a primary failure with a succeeding
fallback, and a double failure. -/
theorem C4_retrieve_safe_fallback_witness :
    AdvancedRetriever.retrieve_safe
      (fun k => if k = 2 then Except.error "boom" else Except.ok ([] : List Document))
      2 1 = Except.ok [] ∧
    AdvancedRetriever.retrieve_safe
      (fun _ => (Except.error "down" : Except String (List Document))) 2 1 =
      Except.error ("Both primary and fallback retrieval failed. Primary error: " ++
        "down" ++ ", Fallback error: " ++ "down") :=
  ⟨(C4_retrieve_safe_fallback _ 2 1).2.1 "boom" [] rfl rfl,
   (C4_retrieve_safe_fallback _ 2 1).2.2 "down" "down" rfl rfl⟩

/-- Claim C9: build_rag_prompt raises ValueError when the tokenizer is None,
and assembles the prompt (through the chat template of the supplied
tokenizer) exactly when a tokenizer is supplied. -/
theorem C9_build_rag_prompt_requires_tokenizer (query : String)
    (context_docs : List Document)
    (chat_history : Option (List (String × String))) :
    PromptManager.build_rag_prompt query context_docs chat_history none =
      .error "Tokenizer with chat template is required for Gemma-style models." ∧
    ∀ tok, ∃ messages, PromptManager.build_rag_prompt query context_docs
      chat_history (some tok) = .ok (tok messages) := by
  exact ⟨rfl, fun tok => ⟨_, rfl⟩⟩

/-- Claim C10: TextChunker.chunk is total and returns a non-empty list
whenever chunk_overlap < chunk_size; when chunk_overlap equals chunk_size
the Python range step is zero and every call raises ValueError (in
particular every non-degenerate one); when chunk_overlap exceeds chunk_size
the range is empty and the single-element list holding the original text is
returned. -/
theorem C10_chunk_step_safety (chunk_size chunk_overlap : Nat) (text : String) :
    (chunk_overlap < chunk_size →
      ∃ cs, TextChunker.chunk chunk_size chunk_overlap text = .ok cs ∧ cs ≠ []) ∧
    (chunk_overlap = chunk_size →
      TextChunker.chunk chunk_size chunk_overlap text =
        .error "ValueError: range() arg 3 must not be zero") ∧
    (chunk_size < chunk_overlap →
      TextChunker.chunk chunk_size chunk_overlap text = .ok [text]) := by
  unfold TextChunker.chunk
  refine ⟨fun h => ?_, fun h => ?_, fun h => ?_⟩
  · have hne : ((chunk_size : Int) - (chunk_overlap : Int)) ≠ 0 := by omega
    rw [if_neg hne]
    exact ⟨_, rfl, ite_isEmpty_ne_nil _ _⟩
  · have hz : ((chunk_size : Int) - (chunk_overlap : Int)) = 0 := by omega
    rw [if_pos hz]
  · have hne : ((chunk_size : Int) - (chunk_overlap : Int)) ≠ 0 := by omega
    have hneg : ¬ ((0 : Int) < (chunk_size : Int) - (chunk_overlap : Int)) := by omega
    rw [if_neg hne]
    simp [hneg]

/-- Witness for C10 at concrete inputs: overlap below, equal to, and above
the chunk size. -/
theorem C10_chunk_step_safety_witness :
    (∃ cs, TextChunker.chunk 3 1 "aa bb cc" = .ok cs ∧ cs ≠ []) ∧
    TextChunker.chunk 2 2 "aa bb" =
      .error "ValueError: range() arg 3 must not be zero" ∧
    TextChunker.chunk 2 5 "aa bb" = .ok ["aa bb"] :=
  ⟨(C10_chunk_step_safety 3 1 "aa bb cc").1 (by decide),
   (C10_chunk_step_safety 2 2 "aa bb").2.1 rfl,
   (C10_chunk_step_safety 2 5 "aa bb").2.2 (by decide)⟩

/-- Claim C5: the generated fragment id is the first 16 hex characters of
the SHA-256 of doc_id, an underscore, the fragment index, an underscore,
and the first 50 characters of the fragment text; consequently chunking the
same text with the same document id and parameters twice yields identical
fragment id sequences. The middle conjunct pins the embedded hash function
against the reference SHA-256 value of doc1_0_hello world. -/
theorem C5_fragment_id_formula (doc_id : String) (idx : Nat) (text : String)
    (split : String → List String) (source : String)
    (extra : List (String × String)) :
    MetadataAwareChunker.generate_chunk_id doc_id idx text =
      pySlice (sha256HexDigest
        (doc_id ++ "_" ++ toString idx ++ "_" ++ pySlice text 50)) 16 ∧
    MetadataAwareChunker.generate_chunk_id "doc1" 0 "hello world" =
      "820b7868dead451f" ∧
    (MetadataAwareChunker.chunk_with_metadata split text source doc_id
        extra).map Document.fragment_id =
      (MetadataAwareChunker.chunk_with_metadata split text source doc_id
        extra).map Document.fragment_id := by
  refine ⟨?_, by decide, rfl⟩
  unfold MetadataAwareChunker.generate_chunk_id
  by_cases h : text = ""
  · subst h; rfl
  · simp [h]

/-- Claim C3: when no reranker is configured, or the caller passes a
rerank_top_k at most top_k (and the vector store honours the requested
candidate count), retrieve never reaches the reranker predict call and the
result is the Stage-1 similarity result truncated to top_k. -/
theorem C3_rerank_skip (predict : Option (String → String → Int))
    (search : Nat → Option (List (String × String)) → List Document)
    (query : String) (top_k : Nat) (rerank_top_k : Option Nat)
    (filters : Option (List (String × String))) :
    (predict = none →
      AdvancedRetriever.retrieve predict search query top_k rerank_top_k
        filters = (search top_k filters).take top_k ∧
      AdvancedRetriever.predictInvoked predict search top_k rerank_top_k
        filters = false) ∧
    (∀ p r, predict = some p → rerank_top_k = some r → r ≤ top_k →
      (search r filters).length ≤ r →
      AdvancedRetriever.retrieve predict search query top_k rerank_top_k
        filters = (search r filters).take top_k ∧
      AdvancedRetriever.predictInvoked predict search top_k rerank_top_k
        filters = false) := by
  constructor
  · intro h
    subst h
    exact ⟨rfl, rfl⟩
  · intro p r hp hr hle hlen
    subst hp
    subst hr
    unfold AdvancedRetriever.retrieve AdvancedRetriever.predictInvoked
      AdvancedRetriever.initialK
    have hnot : ¬ (top_k < (search r filters).length) := by omega
    simp [hnot]

/-- Witness for C3 at concrete inputs: a retriever without a reranker, and
a configured reranker with rerank_top_k = 1 below top_k = 2 against a
vector store returning one candidate at k = 1. -/
theorem C3_rerank_skip_witness :
    (AdvancedRetriever.retrieve none wSearchGrow "q" 2 (some 1) none =
        (wSearchGrow 2 none).take 2 ∧
      AdvancedRetriever.predictInvoked none wSearchGrow 2 (some 1) none =
        false) ∧
    (AdvancedRetriever.retrieve (some fun _ _ => (0 : Int)) wSearchGrow "q" 2
        (some 1) none = (wSearchGrow 1 none).take 2 ∧
      AdvancedRetriever.predictInvoked (some fun _ _ => (0 : Int)) wSearchGrow
        2 (some 1) none = false) :=
  ⟨(C3_rerank_skip none wSearchGrow "q" 2 (some 1) none).1 rfl,
   (C3_rerank_skip (some fun _ _ => (0 : Int)) wSearchGrow "q" 2 (some 1)
      none).2 _ 1 rfl rfl (by decide) (by decide)⟩

/-- Each context entry starts with its 1-based number and the label resolved
by the fallback chain the spec describes (publication_id, then doc_id, then
the doc_N placeholder), followed by the excerpt. -/
theorem formatContextLine_shape (idx : Nat) (d : Document) :
    ∃ excerpt, PromptManager.formatContextLine idx d =
      toString idx ++ ". [Publication ID: " ++ specFragmentLabel d idx ++
        "]\n" ++ excerpt := by
  refine ⟨(if 800 < d.page_content.length then
      pyStrip (pySlice d.page_content 800) ++ "..."
    else pyStrip (pySlice d.page_content 800)) ++ "\n", ?_⟩
  unfold PromptManager.formatContextLine
  rcases h1 : getMeta d.metadata "publication_id" with _ | v <;>
    rcases h2 : getMeta d.metadata "doc_id" with _ | w <;>
      simp [specFragmentLabel, h1, h2, String.append_assoc]

/-- Claim C7: for every non-empty fragment list the context block is the
join of exactly one numbered entry per fragment (numbering starting at 1),
each labeled by trying the publication_id metadata key, then the doc_id
metadata key, then the synthetic doc_N placeholder; no fragment is
omitted. -/
theorem C7_citation_completeness (docs : List Document) (hne : docs ≠ []) :
    PromptManager.format_context_block docs =
      String.intercalate "\n" (((List.range' 1 docs.length).zip docs).map
        fun p => PromptManager.formatContextLine p.1 p.2) ∧
    (((List.range' 1 docs.length).zip docs).map
        fun p => PromptManager.formatContextLine p.1 p.2).length = docs.length ∧
    ∀ j, j < docs.length → ∃ excerpt,
      (((List.range' 1 docs.length).zip docs).map
          fun p => PromptManager.formatContextLine p.1 p.2).getD j "" =
        toString (j + 1) ++ ". [Publication ID: " ++
          specFragmentLabel (docs.getD j default) (j + 1) ++ "]\n" ++ excerpt := by
  have hlen : (((List.range' 1 docs.length).zip docs).map
      fun p => PromptManager.formatContextLine p.1 p.2).length = docs.length := by
    simp
  refine ⟨?_, hlen, ?_⟩
  · unfold PromptManager.format_context_block
    rw [if_neg]
    simp [List.isEmpty_iff, hne]
  · intro j hj
    have hj' : j < (((List.range' 1 docs.length).zip docs).map
        fun p => PromptManager.formatContextLine p.1 p.2).length := by omega
    rw [List.getD_eq_getElem _ _ hj']
    simp only [List.getElem_map, List.getElem_zip, List.getElem_range']
    have h1j : 1 + 1 * j = j + 1 := by omega
    rw [h1j, List.getD_eq_getElem docs default hj]
    exact formatContextLine_shape (j + 1) (docs.get ⟨j, hj⟩)

/-- Witness for C7 at a concrete two-fragment list: one fragment resolving
through doc_id and one resolving to the placeholder. -/
theorem C7_citation_completeness_witness :
    PromptManager.format_context_block [⟨"hello", [("doc_id", "D7")]⟩, ⟨"world", []⟩] =
      String.intercalate "\n"
        (((List.range' 1 ([⟨"hello", [("doc_id", "D7")]⟩,
            (⟨"world", []⟩ : Document)] : List Document).length).zip
          [⟨"hello", [("doc_id", "D7")]⟩, ⟨"world", []⟩]).map
          fun p => PromptManager.formatContextLine p.1 p.2) ∧
    ∃ excerpt,
      (((List.range' 1 ([⟨"hello", [("doc_id", "D7")]⟩,
          (⟨"world", []⟩ : Document)] : List Document).length).zip
        [⟨"hello", [("doc_id", "D7")]⟩, ⟨"world", []⟩]).map
          fun p => PromptManager.formatContextLine p.1 p.2).getD 1 "" =
        toString 2 ++ ". [Publication ID: " ++
          specFragmentLabel (([⟨"hello", [("doc_id", "D7")]⟩,
            (⟨"world", []⟩ : Document)] : List Document).getD 1 default) 2 ++
          "]\n" ++ excerpt :=
  ⟨(C7_citation_completeness
      [⟨"hello", [("doc_id", "D7")]⟩, ⟨"world", []⟩] (by decide)).1,
   (C7_citation_completeness
      [⟨"hello", [("doc_id", "D7")]⟩, ⟨"world", []⟩] (by decide)).2.2 1
      (by decide)⟩

/-- A strictly increasing pair below n is a sublist of List.range n. -/
theorem pair_sublist_range {i j n : Nat} (hij : i < j) (hj : j < n) :
    [i, j].Sublist (List.range n) := by
  induction n with
  | zero => omega
  | succ m ih =>
    rw [List.range_succ]
    rcases Nat.lt_or_ge j m with hjm | hjm
    · exact (ih hjm).trans (List.sublist_append_left _ _)
    · have hjeq : j = m := by omega
      subst hjeq
      have hi : [i].Sublist (List.range j) :=
        List.singleton_sublist.mpr (List.mem_range.mpr hij)
      exact hi.append (List.Sublist.refl [j])

/-- insertLe splits the target list at the insertion point: everything kept
in front of the inserted element compares le-false against it. -/
theorem insertLe_decomp {α : Type} (le : α → α → Bool) (x : α) (m : List α) :
    ∃ m₁ m₂, m = m₁ ++ m₂ ∧ insertLe le x m = m₁ ++ x :: m₂ ∧
      ∀ y ∈ m₁, le x y = false := by
  induction m with
  | nil => exact ⟨[], [], rfl, rfl, by simp⟩
  | cons y ys ih =>
    by_cases h : le x y = true
    · exact ⟨[], y :: ys, rfl, by simp [insertLe, h], by simp⟩
    · obtain ⟨m₁, m₂, hm, hins, hfalse⟩ := ih
      refine ⟨y :: m₁, m₂, by simp [hm], ?_, ?_⟩
      · simp [insertLe, h, hins]
      · intro z hz
        rcases List.mem_cons.mp hz with rfl | hz
        · simpa using h
        · exact hfalse z hz

/-- insertLe is insertion up to permutation. -/
theorem insertLe_perm {α : Type} (le : α → α → Bool) (x : α) (m : List α) :
    (insertLe le x m).Perm (x :: m) := by
  obtain ⟨m₁, m₂, hm, hins, _⟩ := insertLe_decomp le x m
  rw [hins, hm]
  exact List.perm_middle

/-- Insertion sort permutes its input. -/
theorem insertionSortBy_perm {α : Type} (le : α → α → Bool) (l : List α) :
    (insertionSortBy le l).Perm l := by
  induction l with
  | nil => exact List.Perm.refl _
  | cons x xs ih =>
    exact (insertLe_perm le x (insertionSortBy le xs)).trans (ih.cons x)

/-- Stability of the insertion sort: an ordered pair of the input whose left
component compares le-true against the right one keeps its order. -/
theorem sublist_insertionSortBy {α : Type} {le : α → α → Bool} {a b : α}
    (hab : le a b = true) :
    ∀ {l : List α}, [a, b].Sublist l → [a, b].Sublist (insertionSortBy le l)
  | [], h => by cases h
  | x :: xs, h => by
    cases h with
    | cons _ h1 =>
      have hrec := sublist_insertionSortBy hab h1
      obtain ⟨m₁, m₂, hm, hins, _⟩ :=
        insertLe_decomp le x (insertionSortBy le xs)
      show [a, b].Sublist (insertLe le x (insertionSortBy le xs))
      rw [hins]
      have h2 : (m₁ ++ m₂).Sublist (m₁ ++ x :: m₂) :=
        List.Sublist.append_left (List.sublist_cons_self x m₂) m₁
      exact (hm ▸ hrec).trans h2
    | cons₂ _ h1 =>
      obtain ⟨m₁, m₂, hm, hins, hfalse⟩ :=
        insertLe_decomp le a (insertionSortBy le xs)
      show [a, b].Sublist (insertLe le a (insertionSortBy le xs))
      rw [hins]
      have hb : b ∈ insertionSortBy le xs :=
        ((insertionSortBy_perm le xs).mem_iff).mpr
          (List.singleton_sublist.mp h1)
      have hbm : b ∈ m₁ ++ m₂ := hm ▸ hb
      have hb2 : b ∈ m₂ := by
        rcases List.mem_append.mp hbm with hb1 | hb2
        · rw [hfalse b hb1] at hab
          cases hab
        · exact hb2
      have ham : [a, b].Sublist (a :: m₂) :=
        List.Sublist.cons₂ a (List.singleton_sublist.mpr hb2)
      exact ham.trans (List.sublist_append_right _ _)

/-- Stability of the modelled numpy argsort: two indices in increasing order
carrying equal scores stay in increasing order in the ascending argsort. -/
theorem argsort_pair_sublist {scores : List Int} {i j : Nat} (hij : i < j)
    (hj : j < scores.length)
    (heq : scores.getD i 0 = scores.getD j 0) :
    [i, j].Sublist (argsort scores) := by
  unfold argsort
  exact sublist_insertionSortBy
    (by simp only [decide_eq_true_eq]; exact le_of_eq heq)
    (pair_sublist_range hij hj)

/-- Counterexample to claim C2 as stated: all three candidates receive the
same reranker score, yet the reranked output lists them in reverse
similarity order (the output is not even a sublist of the Stage-1 order),
because np.argsort ascending is reversed wholesale by the slice. -/
theorem C2_counterexample :
    AdvancedRetriever.retrieve (some fun _ _ => (0 : Int))
        (fun _ _ => [wDocA, wDocB, wDocC]) "q" 2 (some 3) none =
      [wDocC, wDocB] ∧
    ¬ (AdvancedRetriever.retrieve (some fun _ _ => (0 : Int))
        (fun _ _ => [wDocA, wDocB, wDocC]) "q" 2 (some 3) none).Sublist
      [wDocA, wDocB, wDocC] := by
  constructor
  · decide
  · decide

/-- Claim C2 (amended): the Stage-2 sort of AdvancedRetriever.retrieve is
anti-stable: when two candidates carry equal reranker scores, the index
order used to emit the reranked output lists them in reverse of the
original similarity order (the ascending stable argsort is reversed
wholesale), and the output is that order truncated to top_k. -/
theorem C2_rerank_tie_reversal (p : String → String → Int)
    (search : Nat → Option (List (String × String)) → List Document)
    (query : String) (top_k : Nat) (rerank_top_k : Option Nat)
    (filters : Option (List (String × String))) (i j : Nat)
    (hlen : top_k < (search (AdvancedRetriever.initialK (some p) rerank_top_k
      top_k) filters).length)
    (hij : i < j)
    (hj : j < (search (AdvancedRetriever.initialK (some p) rerank_top_k
      top_k) filters).length)
    (heq : (AdvancedRetriever.stage2Scores p query
        (search (AdvancedRetriever.initialK (some p) rerank_top_k top_k)
          filters)).getD i 0 =
      (AdvancedRetriever.stage2Scores p query
        (search (AdvancedRetriever.initialK (some p) rerank_top_k top_k)
          filters)).getD j 0) :
    AdvancedRetriever.retrieve (some p) search query top_k rerank_top_k
        filters =
      ((AdvancedRetriever.stage2Order p query
          (search (AdvancedRetriever.initialK (some p) rerank_top_k top_k)
            filters)).take top_k).map
        (fun x => (search (AdvancedRetriever.initialK (some p) rerank_top_k
          top_k) filters).getD x default) ∧
    [j, i].Sublist (AdvancedRetriever.stage2Order p query
      (search (AdvancedRetriever.initialK (some p) rerank_top_k top_k)
        filters)) := by
  constructor
  · unfold AdvancedRetriever.retrieve
    dsimp only
    rw [if_pos hlen]
    rfl
  · unfold AdvancedRetriever.stage2Order
    have hj' : j < (AdvancedRetriever.stage2Scores p query
        (search (AdvancedRetriever.initialK (some p) rerank_top_k top_k)
          filters)).length := by
      simpa [AdvancedRetriever.stage2Scores] using hj
    have hsub := argsort_pair_sublist hij hj' heq
    simpa using hsub.reverse

/-- Witness for the amended C2 at a concrete input: three candidates with
equal scores, top_k = 2, rerank_top_k = 3; indices 0 and 1 appear reversed
in the emitted order. -/
theorem C2_rerank_tie_reversal_witness :
    AdvancedRetriever.retrieve (some fun _ _ => (0 : Int))
        (fun _ _ => [wDocA, wDocB, wDocC]) "q" 2 (some 3) none =
      ((AdvancedRetriever.stage2Order (fun _ _ => (0 : Int)) "q"
          ((fun (_ : Nat) (_ : Option (List (String × String))) =>
            [wDocA, wDocB, wDocC]) (AdvancedRetriever.initialK
              (some fun _ _ => (0 : Int)) (some 3) 2) none)).take 2).map
        (fun x => ((fun (_ : Nat) (_ : Option (List (String × String))) =>
          [wDocA, wDocB, wDocC]) (AdvancedRetriever.initialK
            (some fun _ _ => (0 : Int)) (some 3) 2) none).getD x default) ∧
    [1, 0].Sublist (AdvancedRetriever.stage2Order (fun _ _ => (0 : Int)) "q"
      ((fun (_ : Nat) (_ : Option (List (String × String))) =>
        [wDocA, wDocB, wDocC]) (AdvancedRetriever.initialK
          (some fun _ _ => (0 : Int)) (some 3) 2) none)) :=
  C2_rerank_tie_reversal (fun _ _ => (0 : Int))
    (fun _ _ => [wDocA, wDocB, wDocC]) "q" 2 (some 3) none 0 1
    (by decide) (by decide) (by decide) (by decide)

/-- Every word produced by pySplitAux (with a whitespace-free accumulator)
is non-empty and whitespace-free. -/
theorem pySplitAux_words_wf (cs : List Char) :
    ∀ acc, (∀ c ∈ acc, isPySpace c = false) →
      ∀ w ∈ pySplitAux cs acc, w ≠ [] ∧ ∀ c ∈ w, isPySpace c = false := by
  induction cs with
  | nil =>
    intro acc hacc w hw
    unfold pySplitAux at hw
    split at hw
    · cases hw
    · next h =>
      rw [List.mem_singleton] at hw
      subst hw
      refine ⟨?_, fun c hc => hacc c (List.mem_reverse.mp hc)⟩
      intro hrev
      exact h (by simp [List.isEmpty_iff, List.reverse_eq_nil_iff.mp hrev])
  | cons c cs ih =>
    intro acc hacc w hw
    unfold pySplitAux at hw
    by_cases hsp : isPySpace c = true
    · rw [if_pos hsp] at hw
      by_cases hacc0 : acc.isEmpty = true
      · rw [if_pos hacc0] at hw
        exact ih [] (by simp) w hw
      · rw [if_neg hacc0] at hw
        rcases List.mem_cons.mp hw with rfl | hw2
        · refine ⟨?_, fun x hx => hacc x (List.mem_reverse.mp hx)⟩
          intro hrev
          exact hacc0 (by simp [List.isEmpty_iff, List.reverse_eq_nil_iff.mp hrev])
        · exact ih [] (by simp) w hw2
    · rw [if_neg hsp] at hw
      refine ih (c :: acc) ?_ w hw
      intro x hx
      rcases List.mem_cons.mp hx with rfl | hx2
      · simpa using hsp
      · exact hacc x hx2

/-- Every word of a Python split is non-empty and whitespace-free. -/
theorem pySplit_words_wf (text : String) :
    ∀ w ∈ pySplit text, w.data ≠ [] ∧ ∀ c ∈ w.data, isPySpace c = false := by
  intro w hw
  unfold pySplit at hw
  rcases List.mem_map.mp hw with ⟨l, hl, rfl⟩
  exact pySplitAux_words_wf text.data [] (by simp) l hl

/-- A character of the first word occurs in the space-joined string. -/
theorem mem_joinWords_head {w : String} {ws : List String} {c : Char}
    (hc : c ∈ w.data) : c ∈ (joinWords (w :: ws)).data := by
  cases ws with
  | nil => simpa [joinWords, List.intercalate] using hc
  | cons v vs =>
    show c ∈ List.intercalate [' '] (w.data :: v.data :: vs.map String.data)
    rw [List.intercalate, List.intersperse_cons_cons, List.flatten_cons]
    exact List.mem_append_left _ hc

/-- A string holding at least one non-whitespace character does not strip to
the empty string. -/
theorem pyStrip_ne_empty {s : String} {c : Char} (hc : c ∈ s.data)
    (hns : isPySpace c = false) : pyStrip s ≠ "" := by
  intro h
  have hdata : pyStripChars s.data = ([] : List Char) := congrArg String.data h
  unfold pyStripChars at hdata
  rw [List.reverse_eq_nil_iff, List.dropWhile_eq_nil_iff] at hdata
  have hcd : c ∈ s.data.dropWhile isPySpace := by
    have hsplit := List.takeWhile_append_dropWhile isPySpace s.data
    have hc2 : c ∈ List.takeWhile isPySpace s.data ++
        List.dropWhile isPySpace s.data := by rw [hsplit]; exact hc
    rcases List.mem_append.mp hc2 with h1 | h2
    · rw [List.mem_takeWhile_imp h1] at hns
      cases hns
    · exact h2
  have := hdata c (List.mem_reverse.mpr hcd)
  rw [this] at hns
  cases hns

/-- Joining a non-empty list of non-empty whitespace-free words never strips
to the empty string, so the chunk filter keeps every chunk. -/
theorem joinWords_strip_ne_empty {ws : List String} (hne : ws ≠ [])
    (hwf : ∀ w ∈ ws, w.data ≠ [] ∧ ∀ c ∈ w.data, isPySpace c = false) :
    pyStrip (joinWords ws) ≠ "" := by
  cases ws with
  | nil => exact absurd rfl hne
  | cons w ws =>
    obtain ⟨hwne, hwc⟩ := hwf w (List.mem_cons_self w ws)
    obtain ⟨c, hc⟩ := List.exists_mem_of_ne_nil w.data hwne
    exact pyStrip_ne_empty (mem_joinWords_head hc) (hwc c hc)

/-- The word offsets visited by range(0, n, st) stay below n. -/
theorem range_step_lt (st t n : Nat) (hst : 0 < st) (hn : 0 < n)
    (ht : t < (n + st - 1) / st) : st * t < n := by
  have h1 : (n + st - 1) / st = (n - 1) / st + 1 := by
    have h0 : n + st - 1 = (n - 1) + st := by omega
    rw [h0, Nat.add_div_right _ hst]
  rw [h1] at ht
  have ht2 : t ≤ (n - 1) / st := by omega
  have h3 : st * t ≤ st * ((n - 1) / st) := Nat.mul_le_mul_left st ht2
  have h4 : st * ((n - 1) / st) ≤ n - 1 := by
    rw [Nat.mul_comm]
    exact Nat.div_mul_le_self _ _
  omega

/-- With overlap below size and a non-empty word list, TextChunker.chunk
returns exactly the joined word windows at offsets range(0, n, size -
overlap): the strip filter keeps every window and the fallback branch is
not taken. -/
theorem chunk_ok_form (L O : Nat) (hLO : O < L) (text : String)
    (hw : pySplit text ≠ []) :
    TextChunker.chunk L O text = .ok
      ((List.range' 0 (((pySplit text).length + (L - O) - 1) / (L - O))
        (L - O)).map
        fun i => joinWords (((pySplit text).drop i).take L)) := by
  have hne : ((L : Int) - (O : Int)) ≠ 0 := by omega
  have hpos : (0 : Int) < (L : Int) - (O : Int) := by omega
  have htn : ((L : Int) - (O : Int)).toNat = L - O := by omega
  have hn : 0 < (pySplit text).length := List.length_pos.mpr hw
  simp only [TextChunker.chunk]
  rw [if_neg hne, if_pos hpos, htn]
  have hkeep : ∀ x ∈ (List.range' 0
      (((pySplit text).length + (L - O) - 1) / (L - O)) (L - O)).map
      (fun i => joinWords (((pySplit text).drop i).take L)),
      (!(pyStrip x == "")) = true := by
    intro x hx
    rcases List.mem_map.mp hx with ⟨i, hi, rfl⟩
    rcases List.mem_range'.mp hi with ⟨t, ht, rfl⟩
    have hi_lt : (L - O) * t < (pySplit text).length := by
      have := range_step_lt (L - O) t (pySplit text).length (by omega) hn ht
      omega
    have hslice_ne : (((pySplit text).drop (0 + (L - O) * t)).take L) ≠ [] := by
      have hdlen : ((pySplit text).drop (0 + (L - O) * t)).length > 0 := by
        rw [List.length_drop]
        omega
      intro hnil
      have := congrArg List.length hnil
      rw [List.length_take] at this
      simp at this
      omega
    have hmem : ∀ w ∈ ((pySplit text).drop (0 + (L - O) * t)).take L,
        w.data ≠ [] ∧ ∀ c ∈ w.data, isPySpace c = false := by
      intro w hwmem
      exact pySplit_words_wf text w
        (((List.take_sublist _ _).trans (List.drop_sublist _ _)).mem hwmem)
    have := joinWords_strip_ne_empty hslice_ne hmem
    simpa using this
  rw [List.filter_eq_self.mpr hkeep]
  have hm : 0 < ((pySplit text).length + (L - O) - 1) / (L - O) := by
    have := (Nat.one_le_div_iff (show 0 < L - O by omega)).mpr
      (show L - O ≤ (pySplit text).length + (L - O) - 1 by omega)
    omega
  have hne2 : (List.range' 0
      (((pySplit text).length + (L - O) - 1) / (L - O)) (L - O)).map
      (fun i => joinWords (((pySplit text).drop i).take L)) ≠ [] := by
    intro hnil
    have := congrArg List.length hnil
    simp at this
    omega
  rw [if_neg (by simpa [List.isEmpty_iff] using hne2)]

/-- Counterexample to claim C6 as stated: with target length 3 and overlap
2 the consecutive fragments aa bb cc and bb cc dd share 5 characters (the
suffix bb cc), not exactly 2 characters, because the chunker overlaps by
words, not characters. -/
theorem C6_counterexample :
    TextChunker.chunk 3 2 "aa bb cc dd" =
      .ok ["aa bb cc", "bb cc dd", "cc dd", "dd"] ∧
    charOverlap "aa bb cc" "bb cc dd" = 5 ∧ (5 : Nat) ≠ 2 :=
  ⟨by rfl, by decide, by decide⟩

/-- Claim C6 (amended): TextChunker is word-based; for overlap O below
target length L and a text with at least one word, chunk returns the joined
word windows at offsets range(0, word count, L - O), and consecutive
windows overlap by exactly min O (words remaining at the later offset)
words: dropping the first L - O words of window t gives precisely the
first min O (remaining) words of window t + 1 (exactly O words whenever a
full window remains). -/
theorem C6_overlap_in_words (L O : Nat) (hLO : O < L) (text : String)
    (hw : pySplit text ≠ []) :
    TextChunker.chunk L O text = .ok
      ((List.range' 0 (((pySplit text).length + (L - O) - 1) / (L - O))
        (L - O)).map
        fun i => joinWords (((pySplit text).drop i).take L)) ∧
    ∀ t : Nat,
      (((pySplit text).drop ((L - O) * t)).take L).drop (L - O) =
        (((pySplit text).drop ((L - O) * (t + 1))).take L).take O ∧
      ((((pySplit text).drop ((L - O) * (t + 1))).take L).take O).length =
        min O ((pySplit text).length - (L - O) * (t + 1)) := by
  refine ⟨chunk_ok_form L O hLO text hw, fun t => ⟨?_, ?_⟩⟩
  · rw [List.drop_take]
    have h1 : L - (L - O) = O := by omega
    rw [h1, List.drop_drop]
    have h2 : (L - O) * t + (L - O) = (L - O) * (t + 1) := by
      rw [Nat.mul_succ]
    rw [h2, List.take_take]
    have h3 : min O L = O := by omega
    rw [h3]
  · rw [List.take_take]
    have h3 : min O L = O := by omega
    rw [h3, List.length_take, List.length_drop]

/-- Witness for the amended C6 at a concrete input: length 3, overlap 2,
four words; the windows at offsets 0 and 1 share exactly two words. -/
theorem C6_overlap_in_words_witness :
    TextChunker.chunk 3 2 "aa bb cc dd" = .ok
      ((List.range' 0 (((pySplit "aa bb cc dd").length + (3 - 2) - 1) / (3 - 2))
        (3 - 2)).map
        fun i => joinWords (((pySplit "aa bb cc dd").drop i).take 3)) ∧
    (((pySplit "aa bb cc dd").drop ((3 - 2) * 0)).take 3).drop (3 - 2) =
      (((pySplit "aa bb cc dd").drop ((3 - 2) * (0 + 1))).take 3).take 2 :=
  ⟨(C6_overlap_in_words 3 2 (by omega) "aa bb cc dd" (by decide)).1,
   ((C6_overlap_in_words 3 2 (by omega) "aa bb cc dd" (by decide)).2 0).1⟩

/-- With pairwise distinct input texts, the texts of the reranked pairs stay
pairwise distinct (the sort permutes and the truncation is a sublist). -/
theorem rerank_fst_nodup (RERANK_TOP_K : Nat) (predict : String → String → Int)
    (query : String) (documents : List String) (top_k : Option Nat)
    (hnd : documents.Nodup) :
    ((Reranker.rerank RERANK_TOP_K predict query documents top_k).map
      Prod.fst).Nodup := by
  by_cases hd : documents.isEmpty = true
  · simp [Reranker.rerank, hd]
  · simp only [Reranker.rerank, hd, if_false, Bool.false_eq_true]
    set scores := ((documents.map fun d => (query, d)).map
      fun p => predict p.1 p.2) with hscores
    have hlen : documents.length ≤ scores.length := by simp [hscores]
    have hperm := insertionSortBy_perm (fun x y : String × Int =>
      decide (y.2 ≤ x.2)) (documents.zip scores)
    have hmapperm := hperm.map Prod.fst
    have hfst : (documents.zip scores).map Prod.fst = documents :=
      List.map_fst_zip _ _ hlen
    have hzipmap : ((documents.zip scores).map Prod.fst).Nodup := by
      rw [hfst]
      exact hnd
    have hnd2 : ((insertionSortBy (fun x y : String × Int =>
        decide (y.2 ≤ x.2)) (documents.zip scores)).map Prod.fst).Nodup :=
      hmapperm.symm.nodup hzipmap
    rw [List.map_take]
    exact (List.take_sublist _ _).nodup hnd2

/-- Mapping reranked texts back through the last-wins text dict keeps the
fragment ids pairwise distinct, provided the candidate fragment ids were
pairwise distinct and the reranked texts are pairwise distinct. -/
theorem filterMap_find_nodup (results : List Document)
    (reranked : List (String × Int))
    (hfst : (reranked.map Prod.fst).Nodup)
    (hid : (results.map Document.fragment_id).Nodup) :
    ((reranked.filterMap fun td =>
      results.reverse.find? fun d => d.page_content == td.1).map
      Document.fragment_id).Nodup := by
  rw [List.map_filterMap]
  show List.Pairwise (· ≠ ·) _
  rw [List.pairwise_filterMap]
  have hpw : reranked.Pairwise (fun a b => a.1 ≠ b.1) := by
    have hfst2 : List.Pairwise (· ≠ ·) (reranked.map Prod.fst) := hfst
    rw [List.pairwise_map] at hfst2
    exact hfst2
  refine hpw.imp ?_
  intro a b hab x hx y hy
  obtain ⟨da, hda, hxa⟩ := Option.map_eq_some'.mp hx
  obtain ⟨db, hdb, hyb⟩ := Option.map_eq_some'.mp hy
  have hdamem : da ∈ results := List.mem_reverse.mp (List.mem_of_find?_eq_some hda)
  have hdbmem : db ∈ results := List.mem_reverse.mp (List.mem_of_find?_eq_some hdb)
  have hpca : da.page_content = a.1 := by simpa using List.find?_some hda
  have hpcb : db.page_content = b.1 := by simpa using List.find?_some hdb
  intro hxy
  apply hab
  rw [← hpca, ← hpcb]
  have hd : da = db :=
    List.inj_on_of_nodup_map hid hdamem hdbmem (by rw [hxa, hyb, hxy])
  rw [hd]

/-- The reranked path of similarity_search keeps fragment ids pairwise
distinct when the Stage-1 candidates carry pairwise distinct page contents
and pairwise distinct fragment ids. -/
theorem similarity_search_rerank_nodup (TOP_K RERANK_TOP_K : Nat)
    (search : Nat → List Document) (predict : String → String → Int)
    (query : String) (k0 : Option Nat)
    (hpc : ((search (resolveK TOP_K k0 * 2)).map
      (fun d => d.page_content)).Nodup)
    (hid : ((search (resolveK TOP_K k0 * 2)).map Document.fragment_id).Nodup) :
    ((RetrievalEngine.similarity_search TOP_K RERANK_TOP_K search predict
      query k0 true).map Document.fragment_id).Nodup := by
  have hmain : (((Reranker.rerank RERANK_TOP_K predict query
      ((search (resolveK TOP_K k0 * 2)).map fun d => d.page_content)
      (some (resolveK TOP_K k0))).filterMap fun td =>
      (search (resolveK TOP_K k0 * 2)).reverse.find? fun d =>
        d.page_content == td.1).map Document.fragment_id).Nodup :=
    filterMap_find_nodup _ _ (rerank_fst_nodup _ _ _ _ _ hpc) hid
  show ((((Reranker.rerank RERANK_TOP_K predict query
      ((search (resolveK TOP_K k0 * 2)).map fun d => d.page_content)
      (some (resolveK TOP_K k0))).filterMap fun td =>
      (search (resolveK TOP_K k0 * 2)).reverse.find? fun d =>
        d.page_content == td.1).take (resolveK TOP_K k0)).map
      Document.fragment_id).Nodup
  rw [List.map_take]
  exact (List.take_sublist _ _).nodup hmain

/-- Both paths of AdvancedRetriever.retrieve keep fragment ids pairwise
distinct when the Stage-1 candidates carry pairwise distinct fragment
ids. -/
theorem retrieve_nodup (predict : Option (String → String → Int))
    (search : Nat → Option (List (String × String)) → List Document)
    (query : String) (top_k : Nat) (rerank_top_k : Option Nat)
    (filters : Option (List (String × String)))
    (hid : ((search (AdvancedRetriever.initialK predict rerank_top_k top_k)
      filters).map Document.fragment_id).Nodup) :
    ((AdvancedRetriever.retrieve predict search query top_k rerank_top_k
      filters).map Document.fragment_id).Nodup := by
  unfold AdvancedRetriever.retrieve
  cases predict with
  | none =>
    dsimp only
    rw [List.map_take]
    exact (List.take_sublist _ _).nodup hid
  | some p =>
    dsimp only
    split
    · next hguard =>
      set results := search (AdvancedRetriever.initialK (some p) rerank_top_k
        top_k) filters with hres
      set scores := ((results.map fun d => d.page_content).map
        fun t => (query, t)).map (fun pr => p pr.1 pr.2) with hscores
      have hslen : scores.length = results.length := by simp [hscores]
      rw [List.map_map]
      have hargsort_nodup : (argsort scores).Nodup :=
        ((insertionSortBy_perm _ _).symm).nodup (List.nodup_range _)
      have hidx_nodup : ((argsort scores).reverse.take top_k).Nodup :=
        (List.take_sublist _ _).nodup (List.nodup_reverse.mpr hargsort_nodup)
      have hlt : ∀ i ∈ (argsort scores).reverse.take top_k,
          i < results.length := by
        intro i hi
        have hi2 : i ∈ argsort scores :=
          List.mem_reverse.mp ((List.take_sublist _ _).mem hi)
        have hi3 : i ∈ List.range scores.length :=
          (insertionSortBy_perm _ _).mem_iff.mp hi2
        rw [← hslen]
        exact List.mem_range.mp hi3
      show List.Pairwise (· ≠ ·) _
      rw [List.pairwise_map]
      refine List.Pairwise.imp_of_mem ?_ hidx_nodup
      intro a b hamem hbmem hne
      have ha := hlt a hamem
      have hb := hlt b hbmem
      simp only [Function.comp_apply]
      rw [List.getD_eq_getElem _ _ ha, List.getD_eq_getElem _ _ hb]
      intro heq2
      apply hne
      have hma : a < (results.map Document.fragment_id).length := by
        simpa using ha
      have hmb : b < (results.map Document.fragment_id).length := by
        simpa using hb
      have hmapeq : (results.map Document.fragment_id)[a] =
          (results.map Document.fragment_id)[b] := by
        rw [List.getElem_map, List.getElem_map]
        exact heq2
      exact (hid.getElem_inj_iff).mp hmapeq
    · next hguard =>
      rw [List.map_take]
      exact (List.take_sublist _ _).nodup hid

/-- Counterexample to claim C8 as stated: two Stage-1 candidates share their
page content under distinct fragment ids; the reranked similarity_search
maps both reranked copies of that text to the same (last) document through
the text-keyed dict, so the result repeats one fragment id. -/
theorem C8_counterexample :
    RetrievalEngine.similarity_search 5 10 (fun _ => [wDupT1, wDupT2, wDocU])
        (fun _ t => if t = "t" then 9 else 5) "q" (some 2) true =
      [wDupT2, wDupT2] ∧
    ¬ ((RetrievalEngine.similarity_search 5 10
        (fun _ => [wDupT1, wDupT2, wDocU])
        (fun _ t => if t = "t" then 9 else 5) "q" (some 2) true).map
      Document.fragment_id).Nodup :=
  ⟨by decide, by decide⟩

/-- Claim C8 (amended): a retrieval result carries no two entries with the
same fragment id, provided the Stage-1 candidates carry pairwise distinct
fragment ids and (for the reranked similarity_search path, whose text-keyed
dict identifies candidates by page content) pairwise distinct page
contents; both RetrievalEngine.similarity_search with rerank = true and
AdvancedRetriever.retrieve are covered. -/
theorem C8_no_duplicate_fragment_ids (TOP_K RERANK_TOP_K : Nat)
    (search1 : Nat → List Document) (predict1 : String → String → Int)
    (query1 : String) (k0 : Option Nat)
    (predict2 : Option (String → String → Int))
    (search2 : Nat → Option (List (String × String)) → List Document)
    (query2 : String) (top_k : Nat) (rerank_top_k : Option Nat)
    (filters : Option (List (String × String)))
    (h1 : ((search1 (resolveK TOP_K k0 * 2)).map
      (fun d => d.page_content)).Nodup)
    (h2 : ((search1 (resolveK TOP_K k0 * 2)).map Document.fragment_id).Nodup)
    (h3 : ((search2 (AdvancedRetriever.initialK predict2 rerank_top_k top_k)
      filters).map Document.fragment_id).Nodup) :
    ((RetrievalEngine.similarity_search TOP_K RERANK_TOP_K search1 predict1
      query1 k0 true).map Document.fragment_id).Nodup ∧
    ((AdvancedRetriever.retrieve predict2 search2 query2 top_k rerank_top_k
      filters).map Document.fragment_id).Nodup :=
  ⟨similarity_search_rerank_nodup TOP_K RERANK_TOP_K search1 predict1 query1
    k0 h1 h2,
   retrieve_nodup predict2 search2 query2 top_k rerank_top_k filters h3⟩

/-- Witness for the amended C8 at concrete inputs: distinct candidates on
the reranked similarity_search path and on the reranked retrieve path. -/
theorem C8_no_duplicate_fragment_ids_witness :
    ((RetrievalEngine.similarity_search 5 10 (fun _ => [wDocA, wDocB, wDocC])
      (fun _ _ => (0 : Int)) "q" (some 1) true).map
      Document.fragment_id).Nodup ∧
    ((AdvancedRetriever.retrieve (some fun _ _ => (0 : Int)) wSearchGrow "q" 1
      (some 2) none).map Document.fragment_id).Nodup :=
  C8_no_duplicate_fragment_ids 5 10 (fun _ => [wDocA, wDocB, wDocC])
    (fun _ _ => (0 : Int)) "q" (some 1) (some fun _ _ => (0 : Int))
    wSearchGrow "q" 1 (some 2) none (by decide) (by decide) (by decide)
